import Mathlib

/-!
Verification of the dmt modlet tooling.

This file gives a shallow embedding of the two source files of the
repository and proves the specification claims about them.

Embedded sources:
* `src/modlet_xml/command.rs` — the patch-instruction model: the
  `CsvInstruction` and `Command` enums, the `InstructionSet` payload,
  the classification constants, `Command::from_str`, `Command::set`,
  `AsRef<str>`/`Display`, and `Command::write`.
* `src/dmt/commands/package.rs` — the `load` and `run` functions of
  the `package` CLI operation.

Modelling conventions: Rust byte buffers (`Vec<u8>`) holding UTF-8
text are modelled as `String`; `quick_xml` events are modelled by the
inductive `Event`; an XML writer is modelled as the list of events it
has emitted so far, and writing appends to that list; fallible Rust
functions returning `eyre::Result<T>` become `Except String T`; the
file system and the external `modlet` crate are parameters (functions
passed in), since they are collaborators outside the two source files.
-/

namespace Dmt

/-- Model of a `quick_xml` `Event` value: the events that occur in
`InstructionSet.values` and the events a writer emits. `Start` and
`End` are the element start and end tags (`create_element` emits a
`Start`, the inner content, then an `End`); `Text` is character data;
`Comment` is an XML comment. -/
inductive Event where
  | Start (name : String) (attrs : List (String × String))
  | End (name : String)
  | Text (s : String)
  | Comment (s : String)
  deriving DecidableEq

/-- Model of `Event::to_vec` followed by `from_utf8(..).unwrap_or_default()`:
the textual content of the event (tag names and attributes for start
tags, the raw text for text and comment events). -/
def Event.toVec : Event → String
  | .Start n attrs =>
      n ++ String.join (attrs.map (fun a => " " ++ a.1 ++ "=" ++ a.2))
  | .End n => n
  | .Text s => s
  | .Comment s => s

/-- Model of `CsvInstruction` from `command.rs`: add or remove one character of a
comma-separated value set. -/
inductive CsvInstruction where
  | Add (c : Char)
  | Remove (c : Char)
  deriving DecidableEq

/-- Model of `InstructionSet` from `command.rs`: the payload attached to a
payload-bearing command. The Rust field `attribute` is spelled `attr`
here because the source spelling is a reserved word in Lean. -/
structure InstructionSet where
  attr : Option String
  csv_op : Option CsvInstruction
  values : List Event
  xpath : String
  deriving DecidableEq

/-- Model of `InstructionSet::new`, i.e. `Default::default()`: every field empty. -/
def InstructionSet.new : InstructionSet :=
  ⟨none, none, [], ""⟩

/-- Model of `InstructionSet::values_to_strings`: each value event rendered as a
string via `to_vec` and UTF-8 decoding. -/
def InstructionSet.values_to_strings (is : InstructionSet) : List String :=
  is.values.map Event.toVec

/-- The constant `COLLECTION_COMMANDS`: modlet types that require additional lines to
be added after the Start event. -/
def COLLECTION_COMMANDS : List String :=
  ["append", "insert_after", "insert_before"]

/-- The constant `TEXT_COMMANDS`: modlet types that require additional TEXT lines added. -/
def TEXT_COMMANDS : List String :=
  ["csv", "set", "set_attribute"]

/-- The constant `EMPTY_COMMANDS`: modlet types that are empty tags. -/
def EMPTY_COMMANDS : List String :=
  ["remove", "remove_attribute"]

/-- The `Command` enum from `command.rs`: one modlet command instruction. -/
inductive Command where
  | Append (is : InstructionSet)
  | Comment (s : String)
  | Csv (is : InstructionSet)
  | InsertAfter (is : InstructionSet)
  | InsertBefore (is : InstructionSet)
  | NoOp
  | Remove (is : InstructionSet)
  | RemoveAttribute (is : InstructionSet)
  | Set (is : InstructionSet)
  | SetAttribute (is : InstructionSet)
  | StartTag (name : Option String)
  | Unknown
  deriving DecidableEq

/-- The `AsRef<str>` implementation for `Command`: the tag name of the
variant. -/
def Command.as_ref : Command → String
  | .Append _ => "append"
  | .Comment _ => "comment"
  | .Csv _ => "csv"
  | .InsertAfter _ => "insert_after"
  | .InsertBefore _ => "insert_before"
  | .NoOp => "no_op"
  | .Remove _ => "remove"
  | .RemoveAttribute _ => "remove_attribute"
  | .Set _ => "set"
  | .SetAttribute _ => "set_attribute"
  | .StartTag _ => "start_tag"
  | .Unknown => "unknown"

/-- The `Display` implementation for `Command`: the string written by
`fmt`. -/
def Command.display : Command → String
  | .Append _ => "append"
  | .Comment _ => "comment"
  | .Csv _ => "csv"
  | .InsertAfter _ => "insert_after"
  | .InsertBefore _ => "insert_before"
  | .NoOp => "no_op"
  | .Remove _ => "remove"
  | .RemoveAttribute _ => "remove_attribute"
  | .Set _ => "set"
  | .SetAttribute _ => "set_attribute"
  | .StartTag _ => "start_tag"
  | .Unknown => "unknown"

/-- Model of `Command::from_str`: dispatch on the tag name; the Rust `match` on a
`&str` compares the scrutinee against each literal in order, with the
wildcard arm producing `Unknown`. -/
def Command.from_str (cmd : String) : Command :=
  if cmd = "append" then .Append .new
  else if cmd = "comment" then .Comment ""
  else if cmd = "csv" then .Csv .new
  else if cmd = "insert_after" then .InsertAfter .new
  else if cmd = "insert_before" then .InsertBefore .new
  else if cmd = "no_op" then .NoOp
  else if cmd = "remove" then .Remove .new
  else if cmd = "remove_attribute" then .RemoveAttribute .new
  else if cmd = "set" then .Set .new
  else if cmd = "set_attribute" then .SetAttribute .new
  else if cmd = "start_tag" then .StartTag none
  else .Unknown

/-- Model of `Command::set`: attach a payload to a command, keeping the variant;
`Comment` joins the payload values into its text, `StartTag` resets its
name to `None`, and `NoOp`/`Unknown` ignore the payload. -/
def Command.set (c : Command) (instruction_set : InstructionSet) : Command :=
  match c with
  | .Append _ => .Append instruction_set
  | .Comment _ => .Comment (String.intercalate "," instruction_set.values_to_strings)
  | .Csv _ => .Csv instruction_set
  | .InsertAfter _ => .InsertAfter instruction_set
  | .InsertBefore _ => .InsertBefore instruction_set
  | .NoOp => .NoOp
  | .Remove _ => .Remove instruction_set
  | .RemoveAttribute _ => .RemoveAttribute instruction_set
  | .Set _ => .Set instruction_set
  | .SetAttribute _ => .SetAttribute instruction_set
  | .StartTag _ => .StartTag none
  | .Unknown => .Unknown

/-- The `InstructionSet` payload carried by a command, when its variant
carries one. -/
def Command.instruction_set : Command → Option InstructionSet
  | .Append is => some is
  | .Csv is => some is
  | .InsertAfter is => some is
  | .InsertBefore is => some is
  | .Remove is => some is
  | .RemoveAttribute is => some is
  | .Set is => some is
  | .SetAttribute is => some is
  | _ => none

/-- Whether the variant carries an `InstructionSet` payload. -/
def Command.payloadBearing (c : Command) : Bool :=
  c.instruction_set.isSome

/-- Model of `Command::write`: emit the command to a `quick_xml` writer, modelled
as the event list the writer has produced so far. `Append` emits a
start tag with the `xpath` attribute, the payload's value events, and
an end tag; `Comment` emits one comment event; `Set` emits a start tag,
one text event joining the payload values, and an end tag; every other
variant (including the `_` arm covering `NoOp` and `Unknown`) emits
nothing; every arm ends in `Ok(())`. -/
def Command.write (c : Command) (w : List Event) : Except String (List Event) :=
  match c with
  | .Append is =>
      .ok (w ++ [Event.Start "append" [("xpath", is.xpath)]]
             ++ is.values ++ [Event.End "append"])
  | .Comment comment => .ok (w ++ [Event.Comment comment])
  | .Csv _ => .ok w
  | .InsertAfter _ => .ok w
  | .InsertBefore _ => .ok w
  | .Remove _ => .ok w
  | .RemoveAttribute _ => .ok w
  | .Set is =>
      .ok (w ++ [Event.Start "set" [("xpath", is.xpath)],
                 Event.Text (String.intercalate "," is.values_to_strings),
                 Event.End "set"])
  | .SetAttribute _ => .ok w
  | .StartTag _ => .ok w
  | _ => .ok w

/-- The eleven tag names recognized by `Command::from_str` (every match
arm other than the wildcard). -/
def recognizedTags : List String :=
  ["append", "comment", "csv", "insert_after", "insert_before", "no_op",
   "remove", "remove_attribute", "set", "set_attribute", "start_tag"]

/-- Modelled from the spec: the patch parser that reads one XML patch
element and fills in `content_nodes` is not among the two source files
of this repository; per the spec, the nested content events between the
element's start and end populate `content_nodes` exactly for the
content-bearing kinds `append`, `insert_after`, `insert_before`,
`set` and `set_attribute`. -/
def contentBearingTags : List String :=
  ["append", "insert_after", "insert_before", "set", "set_attribute"]

/-! ### Embedding of `src/dmt/commands/package.rs`

Paths are modelled as strings; `path.join("config")` becomes string
concatenation with a separator. The file system enters as two predicate
parameters (`exists` and `is_dir` on paths), and the external
`modlet` crate's `Modlet::new` as a fallible-function parameter.
Progress-bar and terminal output are not modelled; the observable
decision of `run` (whether packaging is performed, and the failure
count it reports otherwise) is returned as a `RunOutcome`. -/

/-- A loaded modlet, as produced by the external `modlet` crate; the
only field the packaging code observes is its name. -/
structure Modlet where
  name : String
  deriving DecidableEq

/-- Model of `load` from `package.rs`: reads a modlet's xml files. It fails with
an "Invalid Modlet" error when `path/config` does not exist as a
directory; otherwise it defers to `Modlet::new`. -/
def load (fsExists fsIsDir : String → Bool) (modletNew : String → Except String Modlet)
    (path : String) : Except String Modlet :=
  let config_dir := path ++ "/config"
  if !(fsExists config_dir && fsIsDir config_dir) then
    .error ("Invalid Modlet " ++ config_dir ++ ": Config directory does not exist")
  else
    modletNew path

/-- The fold/reduce over `modlets.par_iter()` in `run`: each path is
loaded, successful loads are collected in order, failed loads are
dropped (after reporting their per-modlet status). -/
def loadedModlets (fsExists fsIsDir : String → Bool)
    (modletNew : String → Except String Modlet) (modlets : List String) : List Modlet :=
  modlets.filterMap (fun path => (load fsExists fsIsDir modletNew path).toOption)

/-- The observable outcome of `run`: whether `package` was invoked on
the loaded modlets, and, when packaging was skipped, the failed-modlet
count written to the terminal. -/
structure RunOutcome where
  packaged : Bool
  failedReport : Option Nat
  deriving DecidableEq

/-- Model of `run` from `package.rs`: packages one or more modlets into a single
modlet. It errors out when the game directory is unset or missing;
otherwise it loads every source modlet in parallel, and calls `package`
exactly when the number of loaded modlets equals the number supplied,
reporting the shortfall otherwise. The destination path only shapes
progress output, so it does not influence the outcome. -/
def run (gameDir : Option String) (fsExists fsIsDir : String → Bool)
    (modletNew : String → Except String Modlet) (modlets : List String)
    (_modlet : String) : Except String RunOutcome :=
  let count := modlets.length
  match gameDir with
  | none => .error "Game directory not set"
  | some gamedir =>
    if !fsExists gamedir then
      .error ("Game directory does not exist: " ++ gamedir)
    else
      let loaded_modlets := loadedModlets fsExists fsIsDir modletNew modlets
      if loaded_modlets.length = count then
        .ok ⟨true, none⟩
      else
        .ok ⟨false, some (count - loaded_modlets.length)⟩

/-! ### Helper lemmas -/

/-- A tag name outside the recognized list falls through every match arm
of `from_str` to the wildcard. -/
lemma from_str_eq_unknown_of_not_mem (s : String) (h : s ∉ recognizedTags) :
    Command.from_str s = Command.Unknown := by
  simp only [recognizedTags, List.mem_cons, List.not_mem_nil, or_false, not_or] at h
  obtain ⟨h1, h2, h3, h4, h5, h6, h7, h8, h9, h10, h11⟩ := h
  simp [Command.from_str, h1, h2, h3, h4, h5, h6, h7, h8, h9, h10, h11]

/-- A `filterMap` keeps the full length of the list exactly when the
function succeeds on every element. -/
lemma length_filterMap_eq_length_iff {α β : Type} (f : α → Option β) (l : List α) :
    (l.filterMap f).length = l.length ↔ ∀ a ∈ l, (f a).isSome = true := by
  induction l with
  | nil => simp
  | cons x xs ih =>
    cases hfx : f x with
    | none =>
      rw [List.filterMap_cons_none hfx]
      constructor
      · intro h
        exfalso
        have hle := List.length_filterMap_le f xs
        simp only [List.length_cons] at h
        omega
      · intro h
        have := h x (List.mem_cons_self x xs)
        simp [hfx] at this
    | some b =>
      rw [List.filterMap_cons_some hfx]
      simp only [List.length_cons, Nat.add_right_cancel_iff, ih, List.mem_cons]
      constructor
      · intro h a ha
        rcases ha with rfl | ha
        · simp [hfx]
        · exact h a ha
      · intro h a ha
        exact h a (Or.inr ha)

/-- An `Except.toOption` result is `some` exactly when the computation succeeded. -/
lemma isSome_toOption_eq_isOk {ε α : Type} (e : Except ε α) :
    e.toOption.isSome = e.isOk := by
  cases e <;> rfl

/-- All source modlets are collected by the load fold exactly when each
individual `load` succeeds. -/
lemma loadedModlets_length_eq_iff (fse fsd : String → Bool)
    (mn : String → Except String Modlet) (paths : List String) :
    (loadedModlets fse fsd mn paths).length = paths.length ↔
      ∀ p ∈ paths, (load fse fsd mn p).isOk = true := by
  rw [loadedModlets, length_filterMap_eq_length_iff]
  constructor
  · intro h p hp
    have := h p hp
    rwa [isSome_toOption_eq_isOk] at this
  · intro h p hp
    rw [isSome_toOption_eq_isOk]
    exact h p hp

/-! ### Claims -/

/-- C1: `Command::from_str` maps each of the eleven recognized tag names
to the instruction variant of the same name with an empty/default
payload, and every other string to `Unknown`. -/
theorem from_str_recognized_tags (s : String) :
    (Command.from_str "append" = Command.Append InstructionSet.new ∧
     Command.from_str "comment" = Command.Comment "" ∧
     Command.from_str "csv" = Command.Csv InstructionSet.new ∧
     Command.from_str "insert_after" = Command.InsertAfter InstructionSet.new ∧
     Command.from_str "insert_before" = Command.InsertBefore InstructionSet.new ∧
     Command.from_str "no_op" = Command.NoOp ∧
     Command.from_str "remove" = Command.Remove InstructionSet.new ∧
     Command.from_str "remove_attribute" = Command.RemoveAttribute InstructionSet.new ∧
     Command.from_str "set" = Command.Set InstructionSet.new ∧
     Command.from_str "set_attribute" = Command.SetAttribute InstructionSet.new ∧
     Command.from_str "start_tag" = Command.StartTag none) ∧
    (s ∉ recognizedTags → Command.from_str s = Command.Unknown) :=
  ⟨by decide, from_str_eq_unknown_of_not_mem s⟩

/-- Witness for C1 at the unrecognized tag name "frobnicate". -/
theorem from_str_recognized_tags_witness :
    "frobnicate" ∉ recognizedTags ∧
      Command.from_str "frobnicate" = Command.Unknown :=
  ⟨by decide, (from_str_recognized_tags "frobnicate").2 (by decide)⟩

/-- C9: tag-name round trip — `from_str` then `as_ref` is the identity
on the eleven recognized tag names and collapses every other string to
"unknown". -/
theorem from_str_as_ref_round_trip (s : String) :
    (s ∈ recognizedTags → (Command.from_str s).as_ref = s) ∧
    (s ∉ recognizedTags → (Command.from_str s).as_ref = "unknown") := by
  constructor
  · intro hs
    simp only [recognizedTags, List.mem_cons, List.not_mem_nil, or_false] at hs
    rcases hs with rfl | rfl | rfl | rfl | rfl | rfl | rfl | rfl | rfl | rfl | rfl <;> rfl
  · intro hs
    rw [from_str_eq_unknown_of_not_mem s hs]
    rfl

/-- Witness for C9 at the recognized tag "set_attribute" and at the
unrecognized tag "xpath". -/
theorem from_str_as_ref_round_trip_witness :
    ("set_attribute" ∈ recognizedTags ∧
      (Command.from_str "set_attribute").as_ref = "set_attribute") ∧
    ("xpath" ∉ recognizedTags ∧
      (Command.from_str "xpath").as_ref = "unknown") :=
  ⟨⟨by decide, (from_str_as_ref_round_trip "set_attribute").1 (by decide)⟩,
   ⟨by decide, (from_str_as_ref_round_trip "xpath").2 (by decide)⟩⟩

/-- C8: attaching a payload never changes an instruction's kind —
`c.set is` has the same tag name as `c` — and the `Display` rendering of
every command equals its `as_ref` tag name. -/
theorem set_preserves_tag_and_display (c : Command) (is : InstructionSet) :
    (c.set is).as_ref = c.as_ref ∧ c.display = c.as_ref := by
  cases c <;> simp [Command.set, Command.as_ref, Command.display]

/-- C10: attaching any payload to a `StartTag` command discards any
previously recorded root element name. -/
theorem start_tag_set_discards_name (n : Option String) (is : InstructionSet) :
    (Command.StartTag n).set is = Command.StartTag none :=
  rfl

/-- C7: writing a `Comment` command emits exactly one XML comment event
holding the carried text and nothing else; writing `NoOp` emits
nothing. Both succeed. -/
theorem comment_and_noop_write (s : String) (w : List Event) :
    (Command.Comment s).write w = Except.ok (w ++ [Event.Comment s]) ∧
    Command.NoOp.write w = Except.ok w :=
  ⟨rfl, rfl⟩

/-- The claimed payload invariant: the payload's `csv_op` is `Some`
exactly on the `Csv` variant, and in particular never on another
payload-bearing variant. -/
def csvOnlyInvariant (c : Command) : Bool :=
  match c with
  | .Csv is => is.csv_op.isSome
  | .Append is | .InsertAfter is | .InsertBefore is | .Remove is
  | .RemoveAttribute is | .Set is | .SetAttribute is => is.csv_op.isNone
  | _ => true

/-- A payload carrying a csv operation, as the patch parser would build
for a `csv` element but which `Command::set` accepts on any variant. -/
def csvPayloadEx : InstructionSet :=
  ⟨none, some (CsvInstruction.Add 'a'), [], "/nodes/node"⟩

/-- C3 counterexample: constructing an `append` command with `from_str`
and attaching a payload whose `csv_op` is `Some` via `Command::set`
yields a non-`Csv` instruction that carries a csv operation, so the
claimed iff fails. -/
theorem csv_invariant_violated_by_set :
    csvOnlyInvariant ((Command.from_str "append").set csvPayloadEx) = false := by
  decide

/-- C3 amended: `Command::set` installs the supplied payload verbatim on
every payload-bearing variant, so the resulting payload's `csv_op`
equals the supplied one regardless of variant; the `Some`-iff-`Csv`
invariant is not enforced by command construction. -/
theorem set_installs_payload_verbatim (c : Command) (is : InstructionSet)
    (h : c.payloadBearing = true) :
    (c.set is).instruction_set = some is ∧
    ((c.set is).instruction_set).map InstructionSet.csv_op = some is.csv_op := by
  cases c <;>
    simp_all [Command.set, Command.instruction_set, Command.payloadBearing]

/-- Witness for the amended C3 at an `append` command and a payload
carrying a csv operation. -/
theorem set_installs_payload_verbatim_witness :
    (Command.Append InstructionSet.new).payloadBearing = true ∧
    ((Command.Append InstructionSet.new).set csvPayloadEx).instruction_set =
      some csvPayloadEx ∧
    (((Command.Append InstructionSet.new).set csvPayloadEx).instruction_set).map
      InstructionSet.csv_op = some csvPayloadEx.csv_op :=
  ⟨by decide,
   set_installs_payload_verbatim (Command.Append InstructionSet.new) csvPayloadEx
     (by decide)⟩

/-- C4 counterexample: writing an `Unknown` instruction does not fail —
at the empty writer it returns `Ok` (having emitted nothing) instead of
an `UnrecognizedInstruction` error. -/
theorem unknown_write_returns_ok :
    Command.Unknown.write [] = Except.ok [] :=
  rfl

/-- C4 amended: an `Unknown` instruction is never applied in the sense
that writing it emits no events — for every writer state the writer is
left unchanged — but the write returns `Ok` rather than failing with an
`UnrecognizedInstruction` error. -/
theorem unknown_write_emits_nothing (w : List Event) :
    Command.Unknown.write w = Except.ok w :=
  rfl

/-- C5: the classification constants hold exactly the claimed tag names,
they partition the payload-bearing command kinds (pairwise disjoint and
jointly covering), and the spec's content-bearing kinds are exactly the
collection commands together with the non-csv text commands. -/
theorem command_classification_partition (c : Command) :
    COLLECTION_COMMANDS = ["append", "insert_after", "insert_before"] ∧
    TEXT_COMMANDS = ["csv", "set", "set_attribute"] ∧
    EMPTY_COMMANDS = ["remove", "remove_attribute"] ∧
    contentBearingTags =
      COLLECTION_COMMANDS ++ TEXT_COMMANDS.filter (fun t => t ≠ "csv") ∧
    (COLLECTION_COMMANDS ++ TEXT_COMMANDS ++ EMPTY_COMMANDS).Nodup ∧
    (c.payloadBearing = true ↔
      c.as_ref ∈ COLLECTION_COMMANDS ++ TEXT_COMMANDS ++ EMPTY_COMMANDS) := by
  refine ⟨rfl, rfl, rfl, by decide, by decide, ?_⟩
  cases c <;>
    simp [Command.payloadBearing, Command.instruction_set, Command.as_ref,
      COLLECTION_COMMANDS, TEXT_COMMANDS, EMPTY_COMMANDS]

/-- C6: `load` fails with an "Invalid Modlet" error whenever the
candidate directory lacks a `config` subdirectory, and defers to
`Modlet::new` whenever the `config` subdirectory exists. -/
theorem load_requires_config_dir (fse fsd : String → Bool)
    (mn : String → Except String Modlet) (p : String) :
    (¬(fse (p ++ "/config") = true ∧ fsd (p ++ "/config") = true) →
      load fse fsd mn p =
        Except.error
          ("Invalid Modlet " ++ (p ++ "/config") ++
            ": Config directory does not exist")) ∧
    ((fse (p ++ "/config") = true ∧ fsd (p ++ "/config") = true) →
      load fse fsd mn p = mn p) := by
  constructor <;> intro h <;>
    cases hfe : fse (p ++ "/config") <;> cases hfd : fsd (p ++ "/config") <;>
      simp_all [load]

/-- Witness for C6: a missing config directory is rejected, a present
one loads. -/
theorem load_requires_config_dir_witness :
    load (fun _ => false) (fun _ => true) (fun q => Except.ok ⟨q⟩) "MyModlet" =
      Except.error "Invalid Modlet MyModlet/config: Config directory does not exist" ∧
    load (fun _ => true) (fun _ => true) (fun q => Except.ok ⟨q⟩) "MyModlet" =
      Except.ok ⟨"MyModlet"⟩ :=
  ⟨(load_requires_config_dir (fun _ => false) (fun _ => true)
      (fun q => Except.ok ⟨q⟩) "MyModlet").1 (by decide),
   (load_requires_config_dir (fun _ => true) (fun _ => true)
      (fun q => Except.ok ⟨q⟩) "MyModlet").2 (by decide)⟩

/-- C2: with a valid game directory, `run` performs packaging exactly
when the number of successfully loaded modlets equals the number of
source paths supplied — equivalently, when every source modlet loads
without error — and otherwise skips packaging and reports the count of
failed modlets. -/
theorem run_packages_iff_all_loaded (gd : String) (fse fsd : String → Bool)
    (mn : String → Except String Modlet) (paths : List String) (dest : String)
    (hgd : fse gd = true) :
    (run (some gd) fse fsd mn paths dest = Except.ok ⟨true, none⟩ ↔
      ∀ p ∈ paths, (load fse fsd mn p).isOk = true) ∧
    ((loadedModlets fse fsd mn paths).length ≠ paths.length →
      run (some gd) fse fsd mn paths dest =
        Except.ok
          ⟨false, some (paths.length - (loadedModlets fse fsd mn paths).length)⟩) ∧
    ((loadedModlets fse fsd mn paths).length = paths.length ↔
      ∀ p ∈ paths, (load fse fsd mn p).isOk = true) := by
  have hlen := loadedModlets_length_eq_iff fse fsd mn paths
  refine ⟨?_, ?_, hlen⟩
  · rcases Decidable.em
      ((loadedModlets fse fsd mn paths).length = paths.length) with hc | hc
    · simp only [run, hgd, Bool.not_true, Bool.false_eq_true, if_false, if_pos hc]
      simp only [true_iff, iff_true]
      exact hlen.mp hc
    · rw [← hlen]
      simp [run, hgd, hc]
  · intro hne
    simp [run, hgd, hne]

/-- Witness for C2: two well-formed modlets load and get packaged. -/
theorem run_packages_iff_all_loaded_witness :
    run (some "game") (fun _ => true) (fun _ => true)
        (fun p => Except.ok ⟨p⟩) ["ModA", "ModB"] "Dest" =
      Except.ok ⟨true, none⟩ :=
  (run_packages_iff_all_loaded "game" (fun _ => true) (fun _ => true)
      (fun p => Except.ok ⟨p⟩) ["ModA", "ModB"] "Dest" rfl).1.mpr (by decide)

end Dmt
